import Mathlib

/-!
Shallow embedding of the server-side world simulation of Pirates' Conquest
(src/api/src/game/World.ts, src/api/src/game/entities/*, GameServer).

Conventions of the embedding:
* Positions, sizes, angles and millisecond timers are rationals; hp, cannons
  and counts are naturals (every call site in the program passes nonnegative
  integers for hp amounts, so JS subtraction followed by the `<= 0` death
  check coincides with truncated natural subtraction plus the `hp <= amount`
  test).
* JS comparisons `Math.sqrt(dx*dx+dy*dy) < a` are embedded as
  `dx^2+dy^2 < a^2`, which is equivalent whenever `a` is nonnegative (all
  sizes occurring in the program are nonnegative).
* Sources of randomness (spawn positions, loot offsets, generated uuids) are
  passed in as explicit parameters, and the transcendental functions used
  for projectile placement are abstracted as parameters `cosf`, `sinf`
  together with a parameter `halfPi` standing for `Math.PI / 2`; this keeps
  every definition executable.
-/

namespace PiratesConquest

/-- A 2-d point, `Vector2` in the source. -/
structure Vec2 where
  x : ℚ
  y : ℚ
  deriving DecidableEq, Repr

/-- Squared Euclidean distance between two points. -/
def dist2 (a b : Vec2) : ℚ := (a.x - b.x) * (a.x - b.x) + (a.y - b.y) * (a.y - b.y)

/-- `Entity.collidesWith` (entities/Entity.ts): circular test
`distance < size + other.size`, embedded with both sides squared. -/
def collidesb (p1 : Vec2) (s1 : ℚ) (p2 : Vec2) (s2 : ℚ) : Bool :=
  decide (dist2 p1 p2 < (s1 + s2) * (s1 + s2))

/-- `ResourceType` (entities/Resource.ts). -/
inductive ResourceType where
  | wood
  | chest
  deriving DecidableEq, Repr

/-- `Resource` (entities/Resource.ts). -/
structure ResourceE where
  id : String
  position : Vec2
  resourceType : ResourceType
  value : Nat
  size : ℚ
  deriving DecidableEq, Repr

/-- The `Resource` constructor: size is 15 for wood, 10 for chests. -/
def mkResource (id : String) (position : Vec2) (ty : ResourceType) (value : Nat) : ResourceE :=
  { id := id, position := position, resourceType := ty, value := value,
    size := if ty = ResourceType.wood then 15 else 10 }

/-- `Rock` (entities/Rock.ts). -/
structure RockE where
  id : String
  position : Vec2
  size : ℚ
  hp : Int
  maxHp : Int
  deriving DecidableEq, Repr

/-- `Projectile` (entities/Projectile.ts); its constructor fixes size 5. -/
structure ProjectileE where
  id : String
  position : Vec2
  size : ℚ
  angle : ℚ
  speed : ℚ
  damage : Nat
  ownerId : String
  lifetime : ℚ
  deriving DecidableEq, Repr

/-- The `Projectile` constructor. -/
def mkProjectile (id : String) (position : Vec2) (angle speed : ℚ) (damage : Nat)
    (ownerId : String) : ProjectileE :=
  { id := id, position := position, size := 5, angle := angle, speed := speed,
    damage := damage, ownerId := ownerId, lifetime := 0 }

/-- `Player` (entities/Player.ts).  The `controls` and `lastKnownEntities`
fields are not needed by any claim and are omitted; the per-instance
constants `speed`, `rotationSpeed` and `cannonCooldownTime` are modelled as
global constants below. -/
structure PlayerE where
  id : String
  name : String
  position : Vec2
  size : ℚ
  angle : ℚ
  hp : Nat
  maxHp : Nat
  shipType : Nat
  cannons : Nat
  cannonCooldown : ℚ
  deriving DecidableEq, Repr

/-- `Player.BASE_SIZE` = 20. -/
def baseSize : ℚ := 20

/-- `Player.cannonCooldownTime` = 2000 ms. -/
def cannonCooldownTime : ℚ := 2000

/-- The `Player` constructor: size is set to `BASE_SIZE` (the constructor
does not recompute it from hp), cooldown starts at 0, `maxHp := hp`; the
random starting angle is passed in as a parameter. -/
def mkPlayer (id name : String) (position : Vec2) (shipType hp cannons : Nat)
    (angle : ℚ) : PlayerE :=
  { id := id, name := name, position := position, size := baseSize, angle := angle,
    hp := hp, maxHp := hp, shipType := shipType, cannons := cannons,
    cannonCooldown := 0 }

/-- `Player.updateSize`: `size = Math.min(BASE_SIZE + hp*2, 500)`. -/
def updateSize (p : PlayerE) : PlayerE :=
  { p with size := min (baseSize + (p.hp : ℚ) * 2) 500 }

/-- `Player.updateCannons`: `cannons = Math.max(cannons, 2 + Math.floor(hp/5)*2)`. -/
def updateCannons (p : PlayerE) : PlayerE :=
  { p with cannons := max p.cannons (2 + p.hp / 5 * 2) }

/-- `Player.addHp`: raise hp (and maxHp), then recompute size, then cannons. -/
def addHp (p : PlayerE) (amount : Nat) : PlayerE :=
  updateCannons (updateSize { p with hp := p.hp + amount, maxHp := p.hp + amount })

/-- `Player.takeDamage`: subtract, clamp at 0 and report death; on survival
recompute size and cannons.  (`hp - amount <= 0` in the source is exactly
`p.hp ≤ amount` here.) -/
def takeDamage (p : PlayerE) (amount : Nat) : PlayerE × Bool :=
  if p.hp ≤ amount then ({ p with hp := 0 }, true)
  else (updateCannons (updateSize { p with hp := p.hp - amount }), false)

/-- `Player.canFire`: `cannonCooldown <= 0`. -/
def canFire (p : PlayerE) : Bool := decide (p.cannonCooldown ≤ 0)

/-- `Player.startCooldown`. -/
def startCooldown (p : PlayerE) : PlayerE :=
  { p with cannonCooldown := cannonCooldownTime }

/-- The player-reset part of `World.handlePlayerDeath`: hp := 1, cannons := 2,
recompute size, teleport to a fresh spawn position (passed as a parameter). -/
def deathReset (p : PlayerE) (respawn : Vec2) : PlayerE :=
  let p1 := updateSize { p with hp := 1, cannons := 2 }
  { p1 with position := respawn }

/-- `World.dropPlayerLoot`: create `Math.floor(player.hp / 2)` wood resources
of value 1 around the death position.  `ids i` stands for the i-th generated
uuid and `offs i` for the i-th pair of `Math.random()*50 - 25` offsets. -/
def dropPlayerLoot (p : PlayerE) (ids : Nat → String) (offs : Nat → Vec2) : List ResourceE :=
  (List.range (p.hp / 2)).map fun i =>
    mkResource (ids i) ⟨p.position.x + (offs i).x, p.position.y + (offs i).y⟩
      ResourceType.wood 1

/-- The size formula exactly as the spec states it:
`clamp(BASE_SIZE + hp*2, BASE_SIZE, 500)`. -/
def sizeClamp (hp : Nat) : ℚ := max baseSize (min (baseSize + (hp : ℚ) * 2) 500)

lemma sizeClamp_eq (h : Nat) : sizeClamp h = min (baseSize + (h : ℚ) * 2) 500 := by
  have h0 : (0 : ℚ) ≤ (h : ℚ) * 2 := by positivity
  unfold sizeClamp baseSize
  rw [max_eq_right]
  apply le_min
  · linarith
  · norm_num

lemma takeDamage_of_le {p : PlayerE} {a : Nat} (h : p.hp ≤ a) :
    takeDamage p a = ({ p with hp := 0 }, true) := by
  simp [takeDamage, h]

lemma takeDamage_of_gt {p : PlayerE} {a : Nat} (h : a < p.hp) :
    takeDamage p a = (updateCannons (updateSize { p with hp := p.hp - a }), false) := by
  simp [takeDamage, Nat.not_le.mpr h]

/-- Claim C2 counterexample: the `Player` constructor sets `size = BASE_SIZE`
without recomputing it from hp, so a freshly joined player (hp = 1, cannons
= 2, as created by `GameServer.handlePlayerJoin`) has size 20, not the
claimed `clamp(20 + 1*2, 20, 500) = 22`. -/
theorem C2_counterexample :
    (mkPlayer "A" "a" ⟨0, 0⟩ 0 1 2 0).size = 20
    ∧ (mkPlayer "A" "a" ⟨0, 0⟩ 0 1 2 0).size ≠ 22
    ∧ sizeClamp 1 = 22 := by
  refine ⟨rfl, ?_, ?_⟩
  · intro h
    rw [show (mkPlayer "A" "a" ⟨0, 0⟩ 0 1 2 0).size = 20 from rfl] at h
    norm_num at h
  · rw [sizeClamp_eq]
    norm_num [baseSize, min_def]

/-- Claim C2 (amended): the size invariant
`size = clamp(BASE_SIZE + hp*2, BASE_SIZE, 500)` holds after `addHp`, after
a non-lethal `takeDamage`, and after the death reset; but the constructor
sets `size = BASE_SIZE = 20` regardless of hp (so a freshly joined player
with hp = 1 has size 20, not 22), and a lethal `takeDamage` leaves the size
field unchanged (it is only recomputed by the subsequent death reset). -/
theorem C2_size_after_ops (id name : String) (pos : Vec2) (st hp0 c0 : Nat) (ang : ℚ)
    (p : PlayerE) (a : Nat) (rp : Vec2) :
    (mkPlayer id name pos st hp0 c0 ang).size = baseSize
    ∧ (addHp p a).size = sizeClamp (p.hp + a)
    ∧ ((takeDamage p a).2 = false → ((takeDamage p a).1).size = sizeClamp (p.hp - a))
    ∧ ((takeDamage p a).2 = true → ((takeDamage p a).1).size = p.size)
    ∧ (deathReset p rp).size = sizeClamp 1 := by
  refine ⟨rfl, ?_, ?_, ?_, ?_⟩
  · simp [addHp, updateSize, updateCannons, sizeClamp_eq]
  · intro h
    rcases le_or_lt p.hp a with hle | hlt
    · rw [takeDamage_of_le hle] at h
      simp at h
    · rw [takeDamage_of_gt hlt]
      simp [updateSize, updateCannons, sizeClamp_eq]
  · intro h
    rcases le_or_lt p.hp a with hle | hlt
    · rw [takeDamage_of_le hle]
    · rw [takeDamage_of_gt hlt] at h
      simp at h
  · simp [deathReset, updateSize, sizeClamp_eq]

/-- Witness for C2_size_after_ops: a player at hp 2 survives 1 damage and
ends with size `sizeClamp 1 = 22`. -/
theorem C2_size_after_ops_witness :
    (takeDamage (addHp (mkPlayer "A" "a" ⟨0, 0⟩ 0 1 2 0) 1) 1).2 = false
    ∧ ((takeDamage (addHp (mkPlayer "A" "a" ⟨0, 0⟩ 0 1 2 0) 1) 1).1).size
        = sizeClamp ((addHp (mkPlayer "A" "a" ⟨0, 0⟩ 0 1 2 0) 1).hp - 1) :=
  ⟨by decide,
    (C2_size_after_ops "A" "a" ⟨0, 0⟩ 0 1 2 0
      (addHp (mkPlayer "A" "a" ⟨0, 0⟩ 0 1 2 0) 1) 1 ⟨0, 0⟩).2.2.1 (by decide)⟩

/-- Claim C1: on a death caused by a projectile hit (every projectile the
world creates carries damage 1, see `createProjectiles`/`mkProjectile`), the
death handling creates exactly `floor(H/2)` wood resources and no chest,
where `H` is the victim's hp when the lethal hit lands.  With damage 1 a
lethal hit can only land at `H ≤ 1`, so `floor(H/2) = 0`, which coincides
with what `dropPlayerLoot` produces from the already-zeroed hp. -/
theorem C1_death_loot (p : PlayerE) (ids : Nat → String) (offs : Nat → Vec2)
    (hlethal : (takeDamage p 1).2 = true) :
    (dropPlayerLoot (takeDamage p 1).1 ids offs).length = p.hp / 2
    ∧ (∀ r ∈ dropPlayerLoot (takeDamage p 1).1 ids offs,
        r.resourceType = ResourceType.wood ∧ r.value = 1
        ∧ |r.position.x - ((takeDamage p 1).1).position.x| ≤ 25
        ∧ |r.position.y - ((takeDamage p 1).1).position.y| ≤ 25)
    ∧ (dropPlayerLoot (takeDamage p 1).1 ids offs).countP
        (fun r => decide (r.resourceType = ResourceType.chest)) = 0 := by
  have hle : p.hp ≤ 1 := by
    by_contra hgt
    rw [takeDamage_of_gt (Nat.lt_of_not_le hgt)] at hlethal
    simp at hlethal
  rw [takeDamage_of_le hle]
  have hloot : dropPlayerLoot ({ p with hp := 0 } : PlayerE) ids offs = [] := by
    simp [dropPlayerLoot]
  refine ⟨?_, ?_, ?_⟩
  · rw [show (({ p with hp := 0 } : PlayerE), true).1 = { p with hp := 0 } from rfl, hloot]
    simp [Nat.div_eq_of_lt (Nat.lt_succ_of_le hle)]
  · intro r hr
    rw [show (({ p with hp := 0 } : PlayerE), true).1 = { p with hp := 0 } from rfl, hloot] at hr
    simp at hr
  · rw [show (({ p with hp := 0 } : PlayerE), true).1 = { p with hp := 0 } from rfl, hloot]
    rfl

/-- Witness for C1_death_loot: a freshly joined player at hp 1 dies to a
damage-1 projectile hit, and exactly `floor(1/2) = 0` wood drops. -/
theorem C1_death_loot_witness :
    (takeDamage (mkPlayer "V" "v" ⟨0, 0⟩ 0 1 2 0) 1).2 = true
    ∧ (dropPlayerLoot (takeDamage (mkPlayer "V" "v" ⟨0, 0⟩ 0 1 2 0) 1).1
        (fun _ => "r") (fun _ => ⟨0, 0⟩)).length
      = (mkPlayer "V" "v" ⟨0, 0⟩ 0 1 2 0).hp / 2 :=
  ⟨by decide,
    (C1_death_loot (mkPlayer "V" "v" ⟨0, 0⟩ 0 1 2 0) (fun _ => "r")
      (fun _ => ⟨0, 0⟩) (by decide)).1⟩

/-- The ship-movement collision handling of `World.update` (World.ts): after
`player.update` computed the moved-and-clamped position `newPos`, the
position is reverted to the pre-tick `prevPos` if it collides with any rock,
and afterwards reverted if the (possibly already reverted) position collides
with any other ship.  `others` holds the other players; the source skips the
moving ship itself by id. -/
def resolveShipPosition (prevPos newPos : Vec2) (sz : ℚ)
    (rocks : List RockE) (others : List PlayerE) : Vec2 :=
  let afterRocks :=
    if rocks.any (fun r => collidesb newPos sz r.position r.size) then prevPos else newPos
  if others.any (fun o => collidesb afterRocks sz o.position o.size) then prevPos
  else afterRocks

/-- Claim C4: if the moved position collides with any rock or any other
ship, the ship ends the movement step at its pre-tick position; otherwise it
ends at the moved-and-clamped position. -/
theorem C4_non_penetration (prevPos newPos : Vec2) (sz : ℚ)
    (rocks : List RockE) (others : List PlayerE) :
    ((rocks.any (fun r => collidesb newPos sz r.position r.size) = true
        ∨ others.any (fun o => collidesb newPos sz o.position o.size) = true) →
      resolveShipPosition prevPos newPos sz rocks others = prevPos)
    ∧ (rocks.any (fun r => collidesb newPos sz r.position r.size) = false →
        others.any (fun o => collidesb newPos sz o.position o.size) = false →
        resolveShipPosition prevPos newPos sz rocks others = newPos) := by
  constructor
  · intro h
    unfold resolveShipPosition
    rcases h with h | h
    · simp [h]
    · by_cases hr : rocks.any (fun r => collidesb newPos sz r.position r.size) = true
      · simp [hr]
      · simp only [Bool.not_eq_true] at hr
        simp [hr, h]
  · intro hr ho
    unfold resolveShipPosition
    simp [hr, ho]

/-- Witness for C4_non_penetration: a move into a rock is reverted; with no
obstacles the moved position stands. -/
theorem C4_non_penetration_witness :
    resolveShipPosition ⟨5, 5⟩ ⟨0, 0⟩ 20
        [{ id := "k", position := ⟨0, 0⟩, size := 30, hp := 3, maxHp := 3 }] [] = ⟨5, 5⟩
    ∧ resolveShipPosition ⟨5, 5⟩ ⟨0, 0⟩ 20 [] [] = ⟨0, 0⟩ :=
  ⟨(C4_non_penetration ⟨5, 5⟩ ⟨0, 0⟩ 20
      [{ id := "k", position := ⟨0, 0⟩, size := 30, hp := 3, maxHp := 3 }] []).1
      (Or.inl (by simp [collidesb, dist2]; norm_num)),
   (C4_non_penetration ⟨5, 5⟩ ⟨0, 0⟩ 20 [] []).2 (by simp) (by simp)⟩

/-- The hp-to-cannons formula of `Player.updateCannons`:
`2 + Math.floor(hp/5) * 2`. -/
def cannonFormula (v : Nat) : Nat := 2 + v / 5 * 2

/-- The two hp-mutating player operations; the death reset is excluded, as
in the claim. -/
inductive PlayerOp where
  | addHpOp (amount : Nat)
  | takeDamageOp (amount : Nat)
  deriving DecidableEq, Repr

/-- Apply one operation (a `takeDamage` keeps the player record, lethal or
not; the death reset is a separate step). -/
def applyOp (p : PlayerE) : PlayerOp → PlayerE
  | PlayerOp.addHpOp a => addHp p a
  | PlayerOp.takeDamageOp a => (takeDamage p a).1

/-- Run a sequence of operations. -/
def runOps (p : PlayerE) (ops : List PlayerOp) : PlayerE := ops.foldl applyOp p

/-- The hp values reached after each operation of the sequence. -/
def reachedTail (p : PlayerE) : List PlayerOp → List Nat
  | [] => []
  | op :: rest => (applyOp p op).hp :: reachedTail (applyOp p op) rest

/-- All hp values reached by the sequence, the initial hp included. -/
def reachedHps (p : PlayerE) (ops : List PlayerOp) : List Nat :=
  p.hp :: reachedTail p ops

/-- Maximum of `cannonFormula` over a list of hp values. -/
def maxFormula (l : List Nat) : Nat :=
  l.foldl (fun m v => max m (cannonFormula v)) 0

lemma applyOp_cannons_mono (q : PlayerE) (op : PlayerOp) :
    q.cannons ≤ (applyOp q op).cannons := by
  cases op with
  | addHpOp a =>
    simp only [applyOp, addHp, updateCannons, updateSize]
    exact le_max_left _ _
  | takeDamageOp a =>
    rcases le_or_lt q.hp a with hle | hlt
    · simp [applyOp, takeDamage_of_le hle]
    · simp only [applyOp, takeDamage_of_gt hlt, updateCannons, updateSize]
      exact le_max_left _ _

lemma applyOp_cannons_eq {q : PlayerE} (op : PlayerOp) (h2 : 2 ≤ q.cannons) :
    (applyOp q op).cannons = max q.cannons (cannonFormula (applyOp q op).hp) := by
  cases op with
  | addHpOp a =>
    simp [applyOp, addHp, updateSize, updateCannons, cannonFormula]
  | takeDamageOp a =>
    rcases le_or_lt q.hp a with hle | hlt
    · simp only [applyOp, takeDamage_of_le hle, cannonFormula]
      norm_num
      exact h2
    · simp [applyOp, takeDamage_of_gt hlt, updateSize, updateCannons, cannonFormula]

lemma runOps_cannons (ops : List PlayerOp) :
    ∀ q : PlayerE, 2 ≤ q.cannons →
      (runOps q ops).cannons =
        (reachedTail q ops).foldl (fun m v => max m (cannonFormula v)) q.cannons := by
  induction ops with
  | nil => intro q _; rfl
  | cons op rest ih =>
    intro q h2
    have h2' : 2 ≤ (applyOp q op).cannons := le_trans h2 (applyOp_cannons_mono q op)
    calc (runOps q (op :: rest)).cannons
        = (runOps (applyOp q op) rest).cannons := rfl
      _ = (reachedTail (applyOp q op) rest).foldl
            (fun m v => max m (cannonFormula v)) (applyOp q op).cannons := ih _ h2'
      _ = (reachedTail (applyOp q op) rest).foldl (fun m v => max m (cannonFormula v))
            (max q.cannons (cannonFormula (applyOp q op).hp)) := by
          rw [applyOp_cannons_eq op h2]
      _ = (reachedTail q (op :: rest)).foldl
            (fun m v => max m (cannonFormula v)) q.cannons := by
          simp [reachedTail, List.foldl_cons]

/-- Claim C6: starting from a player whose cannons match the formula for its
hp (as a fresh join does: hp = 1, cannons = 2), after any sequence of
`addHp`/`takeDamage` operations the cannons equal the maximum of
`2 + 2*floor(v/5)` over every hp value v reached (the initial one
included), and each single operation never decreases the cannons. -/
theorem C6_cannon_monotone (p : PlayerE) (ops : List PlayerOp)
    (hinit : p.cannons = cannonFormula p.hp) :
    (runOps p ops).cannons = maxFormula (reachedHps p ops)
    ∧ ∀ (q : PlayerE) (op : PlayerOp), q.cannons ≤ (applyOp q op).cannons := by
  constructor
  · have h2 : 2 ≤ p.cannons := by
      rw [hinit]
      exact Nat.le_add_right 2 _
    rw [runOps_cannons ops p h2]
    unfold maxFormula reachedHps
    rw [List.foldl_cons]
    congr 1
    rw [hinit]
    exact (max_eq_right (Nat.zero_le _)).symm
  · exact fun q op => applyOp_cannons_mono q op

/-- Witness for C6_cannon_monotone: joining at hp 1 / cannons 2 and eating
5 wood reaches hp 6, where `max(f(1), f(6)) = 4` cannons. -/
theorem C6_cannon_monotone_witness :
    (runOps (mkPlayer "M" "m" ⟨0, 0⟩ 0 1 2 0) [PlayerOp.addHpOp 5]).cannons
      = maxFormula (reachedHps (mkPlayer "M" "m" ⟨0, 0⟩ 0 1 2 0) [PlayerOp.addHpOp 5]) :=
  (C6_cannon_monotone (mkPlayer "M" "m" ⟨0, 0⟩ 0 1 2 0) [PlayerOp.addHpOp 5] (by decide)).1

/-- The player-collision phase of `World.updateProjectiles` for one
projectile: walk the players in order; the first player that is not the
projectile's owner and collides takes the projectile's damage (with the
death reset applied on a lethal hit, using the fresh spawn position passed
in), and the projectile is marked for removal (the `true` flag). -/
def projectileHitPlayers (pr : ProjectileE) (respawn : Vec2) :
    List PlayerE → List PlayerE × Bool
  | [] => ([], false)
  | q :: rest =>
    if q.id ≠ pr.ownerId ∧ collidesb pr.position pr.size q.position q.size = true then
      ((if (takeDamage q pr.damage).2 then deathReset (takeDamage q pr.damage).1 respawn
        else (takeDamage q pr.damage).1) :: rest, true)
    else
      (q :: (projectileHitPlayers pr respawn rest).1, (projectileHitPlayers pr respawn rest).2)

lemma mem_zip_self {α : Type} : ∀ (l : List α) (x : α × α), x ∈ l.zip l → x.1 = x.2 := by
  intro l
  induction l with
  | nil =>
    intro x h
    simp at h
  | cons a t ih =>
    intro x h
    simp only [List.zip_cons_cons, List.mem_cons] at h
    rcases h with rfl | h
    · rfl
    · exact ih x h

/-- Claim C7: in the player-collision phase of `updateProjectiles`, the
player whose id equals the projectile's `ownerId` keeps its hp unchanged,
wherever it sits in the iteration order. -/
theorem C7_owner_immunity (pr : ProjectileE) (respawn : Vec2) (players : List PlayerE) :
    ∀ pair ∈ ((projectileHitPlayers pr respawn players).1).zip players,
      pair.2.id = pr.ownerId → pair.1.hp = pair.2.hp := by
  induction players with
  | nil =>
    intro pair h
    simp [projectileHitPlayers] at h
  | cons q rest ih =>
    intro pair hmem hid
    simp only [projectileHitPlayers] at hmem
    by_cases hc : q.id ≠ pr.ownerId ∧ collidesb pr.position pr.size q.position q.size = true
    · rw [if_pos hc] at hmem
      simp only [List.zip_cons_cons, List.mem_cons] at hmem
      rcases hmem with rfl | hmem
      · exact absurd hid hc.1
      · rw [mem_zip_self rest pair hmem]
    · rw [if_neg hc] at hmem
      simp only [List.zip_cons_cons, List.mem_cons] at hmem
      rcases hmem with rfl | hmem
      · rfl
      · exact ih pair hmem hid

/-- Witness for C7_owner_immunity: a projectile sitting on top of its own
ship leaves the owner untouched. -/
theorem C7_owner_immunity_witness :
    ((mkPlayer "O" "o" ⟨0, 0⟩ 0 1 2 0, mkPlayer "O" "o" ⟨0, 0⟩ 0 1 2 0)
        ∈ ((projectileHitPlayers (mkProjectile "b" ⟨0, 0⟩ 0 300 1 "O") ⟨0, 0⟩
            [mkPlayer "O" "o" ⟨0, 0⟩ 0 1 2 0]).1).zip [mkPlayer "O" "o" ⟨0, 0⟩ 0 1 2 0])
    ∧ (mkPlayer "O" "o" ⟨0, 0⟩ 0 1 2 0).hp = (mkPlayer "O" "o" ⟨0, 0⟩ 0 1 2 0).hp := by
  have hcond : ¬ ((mkPlayer "O" "o" ⟨0, 0⟩ 0 1 2 0).id
        ≠ (mkProjectile "b" ⟨0, 0⟩ 0 300 1 "O").ownerId
      ∧ collidesb (mkProjectile "b" ⟨0, 0⟩ 0 300 1 "O").position
          (mkProjectile "b" ⟨0, 0⟩ 0 300 1 "O").size
          (mkPlayer "O" "o" ⟨0, 0⟩ 0 1 2 0).position
          (mkPlayer "O" "o" ⟨0, 0⟩ 0 1 2 0).size = true) := fun h => h.1 rfl
  have hres : projectileHitPlayers (mkProjectile "b" ⟨0, 0⟩ 0 300 1 "O") ⟨0, 0⟩
      [mkPlayer "O" "o" ⟨0, 0⟩ 0 1 2 0] = ([mkPlayer "O" "o" ⟨0, 0⟩ 0 1 2 0], false) := by
    simp only [projectileHitPlayers]
    rw [if_neg hcond]
  have hmem : (mkPlayer "O" "o" ⟨0, 0⟩ 0 1 2 0, mkPlayer "O" "o" ⟨0, 0⟩ 0 1 2 0)
      ∈ ((projectileHitPlayers (mkProjectile "b" ⟨0, 0⟩ 0 300 1 "O") ⟨0, 0⟩
          [mkPlayer "O" "o" ⟨0, 0⟩ 0 1 2 0]).1).zip [mkPlayer "O" "o" ⟨0, 0⟩ 0 1 2 0] := by
    rw [hres]
    simp
  exact ⟨hmem,
    C7_owner_immunity (mkProjectile "b" ⟨0, 0⟩ 0 300 1 "O") ⟨0, 0⟩
      [mkPlayer "O" "o" ⟨0, 0⟩ 0 1 2 0] _ hmem rfl⟩

/-- The per-resource effect of `World.checkResourceCollisions`: wood adds
hp; a chest upgrades the cannon tier only when hp ≥ 6 and is otherwise a
no-op on the player. -/
def applyResourceEffect (p : PlayerE) (r : ResourceE) : PlayerE :=
  match r.resourceType with
  | ResourceType.wood => addHp p r.value
  | ResourceType.chest => if 6 ≤ p.hp then updateCannons p else p

/-- `World.checkResourceCollisions` restricted to one player: walk the
resources in order; every resource colliding with the running player state
applies its effect and has its id appended to the removal list. -/
def playerResourcePass (p : PlayerE) : List ResourceE → PlayerE × List String
  | [] => (p, [])
  | r :: rest =>
    if collidesb p.position p.size r.position r.size = true then
      ((playerResourcePass (applyResourceEffect p r) rest).1,
        r.id :: (playerResourcePass (applyResourceEffect p r) rest).2)
    else
      playerResourcePass p rest

lemma applyResourceEffect_chest (p : PlayerE) {r : ResourceE}
    (h : r.resourceType = ResourceType.chest) :
    applyResourceEffect p r = if 6 ≤ p.hp then updateCannons p else p := by
  unfold applyResourceEffect
  rw [h]

/-- Claim C8: a chest in collision with a ship is always consumed (its id
joins the removal list regardless of hp), and the cannon-tier upgrade
`updateCannons` is applied exactly when the ship's hp at pickup time is
≥ 6. -/
theorem C8_chest_pickup (p : PlayerE) (r : ResourceE) (rest : List ResourceE)
    (hcol : collidesb p.position p.size r.position r.size = true)
    (hty : r.resourceType = ResourceType.chest) :
    playerResourcePass p (r :: rest)
      = ((playerResourcePass (if 6 ≤ p.hp then updateCannons p else p) rest).1,
          r.id :: (playerResourcePass (if 6 ≤ p.hp then updateCannons p else p) rest).2)
    ∧ r.id ∈ (playerResourcePass p (r :: rest)).2 := by
  have hstep : playerResourcePass p (r :: rest)
      = ((playerResourcePass (if 6 ≤ p.hp then updateCannons p else p) rest).1,
          r.id :: (playerResourcePass (if 6 ≤ p.hp then updateCannons p else p) rest).2) := by
    simp only [playerResourcePass]
    rw [if_pos hcol, applyResourceEffect_chest p hty]
  refine ⟨hstep, ?_⟩
  rw [hstep]
  exact List.mem_cons_self _ _

/-- Witness for C8_chest_pickup: a hp-6 ship on top of a chest consumes it
and gets the upgrade branch. -/
theorem C8_chest_pickup_witness :
    playerResourcePass (mkPlayer "P" "p" ⟨0, 0⟩ 0 6 2 0)
        [mkResource "ch" ⟨0, 0⟩ ResourceType.chest 1]
      = ((playerResourcePass
            (if 6 ≤ (mkPlayer "P" "p" ⟨0, 0⟩ 0 6 2 0).hp
              then updateCannons (mkPlayer "P" "p" ⟨0, 0⟩ 0 6 2 0)
              else mkPlayer "P" "p" ⟨0, 0⟩ 0 6 2 0) []).1,
          "ch" :: (playerResourcePass
            (if 6 ≤ (mkPlayer "P" "p" ⟨0, 0⟩ 0 6 2 0).hp
              then updateCannons (mkPlayer "P" "p" ⟨0, 0⟩ 0 6 2 0)
              else mkPlayer "P" "p" ⟨0, 0⟩ 0 6 2 0) []).2) :=
  (C8_chest_pickup (mkPlayer "P" "p" ⟨0, 0⟩ 0 6 2 0)
    (mkResource "ch" ⟨0, 0⟩ ResourceType.chest 1) []
    (by simp [collidesb, dist2, mkPlayer, mkResource, baseSize]; norm_num) rfl).1

/-- The World fields involved in resource spawning. -/
structure WorldLite where
  resources : List ResourceE
  players : List PlayerE
  rocks : List RockE
  maxWoodCount : Nat
  deriving DecidableEq, Repr

/-- `World.getWoodCount`. -/
def getWoodCount (w : WorldLite) : Nat :=
  (w.resources.filter fun r => decide (r.resourceType = ResourceType.wood)).length

/-- `World.spawnResource`: refuse when the wood cap is reached (for wood),
or when the candidate position (the random draw, passed in) is within
20 units plus the entity's size of any player or rock; otherwise append one
resource of value 1.  `rid` stands for the generated uuid. -/
def spawnResource (w : WorldLite) (ty : ResourceType) (pos : Vec2) (rid : String) : WorldLite :=
  if ty = ResourceType.wood ∧ w.maxWoodCount ≤ getWoodCount w then w
  else if w.players.any
      (fun q => decide (dist2 pos q.position < (20 + q.size) * (20 + q.size))) then w
  else if w.rocks.any
      (fun rk => decide (dist2 pos rk.position < (20 + rk.size) * (20 + rk.size))) then w
  else { w with resources := w.resources ++ [mkResource rid pos ty 1] }

/-- Claim C9: the periodic wood spawn preserves `woodCount ≤ maxWoodCount`:
a call with the cap reached changes nothing, and each successful spawn adds
exactly one wood resource. -/
theorem C9_wood_cap (w : WorldLite) (pos : Vec2) (rid : String) :
    (w.maxWoodCount ≤ getWoodCount w → spawnResource w ResourceType.wood pos rid = w)
    ∧ (spawnResource w ResourceType.wood pos rid = w
        ∨ (spawnResource w ResourceType.wood pos rid).resources
            = w.resources ++ [mkResource rid pos ResourceType.wood 1])
    ∧ (getWoodCount w ≤ w.maxWoodCount →
        getWoodCount (spawnResource w ResourceType.wood pos rid) ≤ w.maxWoodCount)
    ∧ (spawnResource w ResourceType.wood pos rid).maxWoodCount = w.maxWoodCount := by
  have hfull : w.maxWoodCount ≤ getWoodCount w →
      spawnResource w ResourceType.wood pos rid = w := by
    intro h
    unfold spawnResource
    rw [if_pos ⟨rfl, h⟩]
  have hdisj : spawnResource w ResourceType.wood pos rid = w
      ∨ (spawnResource w ResourceType.wood pos rid).resources
          = w.resources ++ [mkResource rid pos ResourceType.wood 1] := by
    unfold spawnResource
    split
    · exact Or.inl rfl
    · split
      · exact Or.inl rfl
      · split
        · exact Or.inl rfl
        · exact Or.inr rfl
  have hmax : (spawnResource w ResourceType.wood pos rid).maxWoodCount = w.maxWoodCount := by
    unfold spawnResource
    split
    · rfl
    · split
      · rfl
      · split
        · rfl
        · rfl
  refine ⟨hfull, hdisj, ?_, hmax⟩
  intro hle
  rcases hdisj with heq | happ
  · rw [heq]
    exact hle
  · rcases Nat.lt_or_ge (getWoodCount w) w.maxWoodCount with hlt | hge
    · have hini : getWoodCount (spawnResource w ResourceType.wood pos rid)
          = getWoodCount w + 1 := by
        unfold getWoodCount
        rw [happ, List.filter_append]
        simp [mkResource]
      omega
    · rw [hfull hge]
      exact hle

/-- Witness for C9_wood_cap: with the cap at 0 the spawn is refused and the
count stays at the cap. -/
theorem C9_wood_cap_witness :
    spawnResource { resources := [], players := [], rocks := [], maxWoodCount := 0 }
        ResourceType.wood ⟨0, 0⟩ "r"
      = { resources := [], players := [], rocks := [], maxWoodCount := 0 }
    ∧ getWoodCount (spawnResource
        { resources := [], players := [], rocks := [], maxWoodCount := 0 }
        ResourceType.wood ⟨0, 0⟩ "r") ≤ 0 :=
  ⟨(C9_wood_cap { resources := [], players := [], rocks := [], maxWoodCount := 0 }
      ⟨0, 0⟩ "r").1 (by decide),
   (C9_wood_cap { resources := [], players := [], rocks := [], maxWoodCount := 0 }
      ⟨0, 0⟩ "r").2.2.1 (by decide)⟩

/-- `VisibleEntities` (types.ts): a per-player visibility snapshot. -/
structure VisibleEntitiesE where
  ships : List PlayerE
  resources : List ResourceE
  rocks : List RockE
  projectiles : List ProjectileE
  deriving DecidableEq, Repr

/-- One entry of the update list built by `World.getEntityUpdates`: either a
serialized snapshot (the snap constructors stand for the `serialize()`
output of the respective entity) or a removal marker `{id, removed:true}`. -/
inductive EntityUpd where
  | shipSnap (s : PlayerE)
  | resourceSnap (r : ResourceE)
  | rockSnap (r : RockE)
  | removed (id : String)
  deriving DecidableEq, Repr

/-- First half of `World.getEntityTypeUpdates` as called on rocks: every
rock of the previous snapshot with no same-id rock in the current snapshot
yields one removal marker, in iteration order. -/
def rockRemovals (previous current : List RockE) : List EntityUpd :=
  (previous.filter fun pr => ! current.any fun c => decide (c.id = pr.id)).map
    fun pr => EntityUpd.removed pr.id

/-- The changed test of `getEntityTypeUpdates` for rocks: position or hp
changed (rocks have no `angle` field, so the source's angle comparison never
applies to them). -/
def rockChanged (p c : RockE) : Bool :=
  decide (c.position.x ≠ p.position.x) || decide (c.position.y ≠ p.position.y)
    || decide (c.hp ≠ p.hp)

/-- Second half of `getEntityTypeUpdates` on rocks: new or changed rocks are
re-sent as full snapshots. -/
def rockChanges (previous current : List RockE) : List EntityUpd :=
  current.filterMap fun c =>
    match previous.find? (fun p => decide (p.id = c.id)) with
    | none => some (EntityUpd.rockSnap c)
    | some p => if rockChanged p c then some (EntityUpd.rockSnap c) else none

/-- `World.getEntityUpdates`: ships and resources are always sent in full;
only rocks are diffed (removal markers first, then new/changed snapshots). -/
def getEntityUpdates (previous current : VisibleEntitiesE) : List EntityUpd :=
  current.ships.map EntityUpd.shipSnap
    ++ current.resources.map EntityUpd.resourceSnap
    ++ rockRemovals previous.rocks current.rocks
    ++ rockChanges previous.rocks current.rocks

/-- Claim C3 counterexample: a ship present in the previous snapshot and
absent from the current one produces no removal marker at all — only rocks
are diffed, so the claim fails for entity types other than rock. -/
theorem C3_counterexample :
    (mkPlayer "A" "a" ⟨0, 0⟩ 0 1 2 0)
        ∈ ({ ships := [mkPlayer "A" "a" ⟨0, 0⟩ 0 1 2 0], resources := [], rocks := [],
              projectiles := [] } : VisibleEntitiesE).ships
    ∧ ({ ships := [], resources := [], rocks := [], projectiles := [] }
          : VisibleEntitiesE).ships = []
    ∧ (getEntityUpdates
          { ships := [mkPlayer "A" "a" ⟨0, 0⟩ 0 1 2 0], resources := [], rocks := [],
            projectiles := [] }
          { ships := [], resources := [], rocks := [], projectiles := [] }).count
        (EntityUpd.removed "A") ≠ 1 := by
  refine ⟨by simp, rfl, ?_⟩
  have hempty : getEntityUpdates
      { ships := [mkPlayer "A" "a" ⟨0, 0⟩ 0 1 2 0], resources := [], rocks := [],
        projectiles := [] }
      { ships := [], resources := [], rocks := [], projectiles := [] } = [] := rfl
  rw [hempty]
  simp

lemma count_removed_map_shipSnap (l : List PlayerE) (i : String) :
    (l.map EntityUpd.shipSnap).count (EntityUpd.removed i) = 0 := by
  rw [List.count_eq_zero]
  simp

lemma count_removed_map_resourceSnap (l : List ResourceE) (i : String) :
    (l.map EntityUpd.resourceSnap).count (EntityUpd.removed i) = 0 := by
  rw [List.count_eq_zero]
  simp

lemma count_removed_rockChanges (previous current : List RockE) (i : String) :
    (rockChanges previous current).count (EntityUpd.removed i) = 0 := by
  rw [List.count_eq_zero]
  intro hmem
  rw [rockChanges, List.mem_filterMap] at hmem
  obtain ⟨c, _, hc⟩ := hmem
  rcases hfind : previous.find? (fun p => decide (p.id = c.id)) with _ | p
  · rw [hfind] at hc
    simp at hc
  · rw [hfind] at hc
    by_cases hch : rockChanged p c = true
    · simp [hch] at hc
    · simp [hch] at hc

lemma count_removed_rockRemovals_zero (current : List RockE) (i : String)
    (l : List RockE) (h : ∀ r ∈ l, r.id ≠ i) :
    (rockRemovals l current).count (EntityUpd.removed i) = 0 := by
  rw [List.count_eq_zero]
  intro hmem
  rw [rockRemovals, List.mem_map] at hmem
  obtain ⟨pr, hpr, heq⟩ := hmem
  simp only [EntityUpd.removed.injEq] at heq
  exact h pr (List.mem_of_mem_filter hpr) heq

lemma rockRemovals_cons (hd : RockE) (tl current : List RockE) :
    rockRemovals (hd :: tl) current =
      (if (! current.any fun c => decide (c.id = hd.id)) = true
        then [EntityUpd.removed hd.id] else [])
      ++ rockRemovals tl current := by
  rw [rockRemovals, List.filter_cons]
  split
  · rw [List.map_cons]
    rfl
  · rfl

lemma count_removed_rockRemovals (current : List RockE) (i : String) :
    ∀ l : List RockE, (l.map RockE.id).Nodup →
      (∃ r ∈ l, r.id = i) → (∀ c ∈ current, c.id ≠ i) →
      (rockRemovals l current).count (EntityUpd.removed i) = 1 := by
  intro l
  induction l with
  | nil =>
    intro _ hex _
    simp at hex
  | cons hd tl ih =>
    intro hnd hex hcur
    have hnd' : (tl.map RockE.id).Nodup := (List.nodup_cons.mp hnd).2
    have hhd : hd.id ∉ tl.map RockE.id := (List.nodup_cons.mp hnd).1
    rw [rockRemovals_cons, List.count_append]
    by_cases hid : hd.id = i
    · have hkeep : (! current.any fun c => decide (c.id = hd.id)) = true := by
        simp only [Bool.not_eq_true', List.any_eq_false, decide_eq_true_eq]
        intro c hc hcc
        exact hcur c hc (hcc.trans hid)
      rw [if_pos hkeep]
      have htl0 : (rockRemovals tl current).count (EntityUpd.removed i) = 0 := by
        apply count_removed_rockRemovals_zero
        intro r hr hri
        exact hhd (List.mem_map.mpr ⟨r, hr, hri.trans hid.symm⟩)
      rw [htl0, hid]
      simp [List.count_cons]
    · have hhead : (if (! current.any fun c => decide (c.id = hd.id)) = true
          then [EntityUpd.removed hd.id] else []).count (EntityUpd.removed i) = 0 := by
        split
        · simp [List.count_cons, hid]
        · rfl
      have hex' : ∃ r ∈ tl, r.id = i := by
        obtain ⟨r, hr, hri⟩ := hex
        rcases List.mem_cons.mp hr with rfl | hrtl
        · exact absurd hri hid
        · exact ⟨r, hrtl, hri⟩
      rw [hhead, ih hnd' hex' hcur]

/-- Claim C3 (amended): `getEntityUpdates` emits removal markers only for
rocks.  A rock of the previous snapshot (rock ids are distinct, coming from
an id-keyed map) with no same-id rock in the current snapshot produces
exactly one `removed` entry, and every `removed` entry originates from such
a disappeared rock; disappearing ships and resources never produce removal
markers (those types are re-sent in full on every update instead). -/
theorem C3_rock_delta (previous current : VisibleEntitiesE) (r : RockE) (i : String)
    (hnd : (previous.rocks.map RockE.id).Nodup)
    (hmem : r ∈ previous.rocks)
    (habs : ∀ c ∈ current.rocks, c.id ≠ r.id) :
    (getEntityUpdates previous current).count (EntityUpd.removed r.id) = 1
    ∧ (EntityUpd.removed i ∈ getEntityUpdates previous current →
        ∃ pr ∈ previous.rocks, pr.id = i ∧ ∀ c ∈ current.rocks, c.id ≠ i) := by
  constructor
  · unfold getEntityUpdates
    rw [List.count_append, List.count_append, List.count_append]
    rw [count_removed_map_shipSnap, count_removed_map_resourceSnap,
      count_removed_rockChanges,
      count_removed_rockRemovals current.rocks r.id previous.rocks hnd ⟨r, hmem, rfl⟩ habs]
  · intro hin
    unfold getEntityUpdates at hin
    simp only [List.mem_append] at hin
    rcases hin with ((h | h) | h) | h
    · simp at h
    · simp at h
    · rw [rockRemovals, List.mem_map] at h
      obtain ⟨pr, hpr, heq⟩ := h
      simp only [EntityUpd.removed.injEq] at heq
      have hprf := List.mem_filter.mp hpr
      have hnone := hprf.2
      simp only [Bool.not_eq_true', List.any_eq_false, decide_eq_true_eq] at hnone
      refine ⟨pr, hprf.1, heq, ?_⟩
      intro c hc hci
      exact hnone c hc (hci.trans heq.symm)
    · exact absurd h (List.count_eq_zero.mp (count_removed_rockChanges _ _ i))

/-- Witness for C3_rock_delta: a lone rock that leaves the viewport yields
exactly one removal marker. -/
theorem C3_rock_delta_witness :
    (getEntityUpdates
        { ships := [], resources := [],
          rocks := [{ id := "R1", position := ⟨0, 0⟩, size := 30, hp := 3, maxHp := 3 }],
          projectiles := [] }
        { ships := [], resources := [], rocks := [], projectiles := [] }).count
      (EntityUpd.removed "R1") = 1 :=
  (C3_rock_delta
    { ships := [], resources := [],
      rocks := [{ id := "R1", position := ⟨0, 0⟩, size := 30, hp := 3, maxHp := 3 }],
      projectiles := [] }
    { ships := [], resources := [], rocks := [], projectiles := [] }
    { id := "R1", position := ⟨0, 0⟩, size := 30, hp := 3, maxHp := 3 } "R1"
    (by simp) (by simp) (by simp)).1

/-- One side of `World.createProjectiles`: `cannons/2` projectiles spawned
along the ship hull, offset outward by `0.6*shipWidth` and spaced by
`((i+1)/(cannonCount+1) - 0.5) * 0.8*shipHeight`, each angled perpendicular
to the hull.  `side` 0 is the `+π/2` side, `side` 1 the `-π/2` side;
`ids side i` stands for the generated uuid. -/
def sideProjectiles (cosf sinf : ℚ → ℚ) (halfPi : ℚ) (ids : Nat → Nat → String)
    (p : PlayerE) (side : Nat) : List ProjectileE :=
  let cannonCount := p.cannons / 2
  let shipWidth := p.size
  let shipHeight := p.size * 2
  let spawnOffset := shipWidth * (6 / 10)
  let sideAngle := if side = 0 then halfPi else -halfPi
  (List.range cannonCount).map fun (i : Nat) =>
    let spacing := (((i : ℚ) + 1) / ((cannonCount : ℚ) + 1) - 1 / 2) * (shipHeight * (8 / 10))
    let sideX := cosf (p.angle + sideAngle) * spawnOffset
    let sideY := sinf (p.angle + sideAngle) * spawnOffset
    let offX := cosf p.angle * spacing
    let offY := sinf p.angle * spacing
    mkProjectile (ids side i)
      ⟨p.position.x + sideX + offX, p.position.y + sideY + offY⟩
      (p.angle + sideAngle) 300 1 p.id

/-- `World.createProjectiles`: refused while the cooldown runs; otherwise
spawn both sides' projectiles and start the 2000 ms cooldown. -/
def createProjectiles (cosf sinf : ℚ → ℚ) (halfPi : ℚ) (ids : Nat → Nat → String)
    (p : PlayerE) : List ProjectileE × PlayerE :=
  if canFire p = true then
    (sideProjectiles cosf sinf halfPi ids p 0 ++ sideProjectiles cosf sinf halfPi ids p 1,
      startCooldown p)
  else ([], p)

/-- `GameServer.handleCannonFire`: only players with at least 2 cannons may
fire at all. -/
def handleCannonFire (cosf sinf : ℚ → ℚ) (halfPi : ℚ) (ids : Nat → Nat → String)
    (p : PlayerE) : List ProjectileE × PlayerE :=
  if 2 ≤ p.cannons then createProjectiles cosf sinf halfPi ids p else ([], p)

/-- Claim C5: a fire request with cooldown 0 and cannons = 2k (k ≥ 1)
creates exactly 2k projectiles, k per side, each with damage 1, speed 300,
the firing player's id as owner, and angle `shipAngle ± π/2`, and leaves the
cooldown at 2000; with a running cooldown nothing is created and the player
is unchanged. -/
theorem C5_cannon_fire (cosf sinf : ℚ → ℚ) (halfPi : ℚ) (ids : Nat → Nat → String)
    (p : PlayerE) (k : Nat) (hcd : p.cannonCooldown = 0) (hck : p.cannons = 2 * k)
    (hk : 1 ≤ k) :
    (handleCannonFire cosf sinf halfPi ids p).1
        = sideProjectiles cosf sinf halfPi ids p 0 ++ sideProjectiles cosf sinf halfPi ids p 1
    ∧ (handleCannonFire cosf sinf halfPi ids p).1.length = 2 * k
    ∧ (sideProjectiles cosf sinf halfPi ids p 0).length = k
    ∧ (sideProjectiles cosf sinf halfPi ids p 1).length = k
    ∧ (∀ pr ∈ sideProjectiles cosf sinf halfPi ids p 0,
        pr.damage = 1 ∧ pr.speed = 300 ∧ pr.ownerId = p.id ∧ pr.angle = p.angle + halfPi)
    ∧ (∀ pr ∈ sideProjectiles cosf sinf halfPi ids p 1,
        pr.damage = 1 ∧ pr.speed = 300 ∧ pr.ownerId = p.id ∧ pr.angle = p.angle - halfPi)
    ∧ (handleCannonFire cosf sinf halfPi ids p).2.cannonCooldown = 2000
    ∧ (∀ q : PlayerE, 0 < q.cannonCooldown →
        handleCannonFire cosf sinf halfPi ids q = ([], q)) := by
  have hfire : canFire p = true := by
    simp [canFire, hcd]
  have hc2 : 2 ≤ p.cannons := by
    rw [hck]
    omega
  have hmain : handleCannonFire cosf sinf halfPi ids p
      = (sideProjectiles cosf sinf halfPi ids p 0 ++ sideProjectiles cosf sinf halfPi ids p 1,
          startCooldown p) := by
    unfold handleCannonFire createProjectiles
    rw [if_pos hc2, if_pos hfire]
  have hlen : ∀ side : Nat, (sideProjectiles cosf sinf halfPi ids p side).length = k := by
    intro side
    unfold sideProjectiles
    rw [List.length_map, List.length_range, hck]
    omega
  have hprops : ∀ side : Nat, ∀ pr ∈ sideProjectiles cosf sinf halfPi ids p side,
      pr.damage = 1 ∧ pr.speed = 300 ∧ pr.ownerId = p.id
        ∧ pr.angle = p.angle + (if side = 0 then halfPi else -halfPi) := by
    intro side pr hpr
    unfold sideProjectiles at hpr
    rw [List.mem_map] at hpr
    obtain ⟨i, _, rfl⟩ := hpr
    exact ⟨rfl, rfl, rfl, rfl⟩
  refine ⟨?_, ?_, hlen 0, hlen 1, ?_, ?_, ?_, ?_⟩
  · rw [hmain]
  · rw [hmain]
    show (sideProjectiles cosf sinf halfPi ids p 0
        ++ sideProjectiles cosf sinf halfPi ids p 1).length = 2 * k
    rw [List.length_append, hlen 0, hlen 1]
    omega
  · intro pr hpr
    simpa using hprops 0 pr hpr
  · intro pr hpr
    have h := hprops 1 pr hpr
    simp only [if_neg (by norm_num : ¬ (1 : Nat) = 0)] at h
    exact ⟨h.1, h.2.1, h.2.2.1, by rw [h.2.2.2]; ring⟩
  · rw [hmain]
    rfl
  · intro q hq
    have hnf : ¬ canFire q = true := by
      simp only [canFire, decide_eq_true_eq, not_le]
      exact hq
    unfold handleCannonFire createProjectiles
    by_cases h2 : 2 ≤ q.cannons
    · rw [if_pos h2, if_neg hnf]
    · rw [if_neg h2]

/-- Witness for C5_cannon_fire: a fresh player (cooldown 0, cannons 2)
fires 2 projectiles. -/
theorem C5_cannon_fire_witness :
    (handleCannonFire (fun _ => 0) (fun _ => 0) 0 (fun _ _ => "j")
      (mkPlayer "F" "f" ⟨0, 0⟩ 0 1 2 0)).1.length = 2 * 1 :=
  (C5_cannon_fire (fun _ => 0) (fun _ => 0) 0 (fun _ _ => "j")
    (mkPlayer "F" "f" ⟨0, 0⟩ 0 1 2 0) 1 rfl rfl (by decide)).2.1

/-- The `game:update` payload of `GameServer.sendUpdates` (as with
`EntityUpd`, the embedded records stand for the serialized wire forms). -/
structure GameUpdateMsg where
  playerSnap : PlayerE
  entities : List EntityUpd
  projSnaps : List ProjectileE
  deriving DecidableEq, Repr

/-- The per-player send decision of `GameServer.sendUpdates`: the message —
carrying the player's own serialized state, the entity update list and the
snapshots of all currently visible projectiles — is emitted iff the entity
update list is non-empty. -/
def gameUpdateMessage (p : PlayerE) (previous current : VisibleEntitiesE) :
    Option GameUpdateMsg :=
  if 0 < (getEntityUpdates previous current).length then
    some { playerSnap := p, entities := getEntityUpdates previous current,
           projSnaps := current.projectiles }
  else none

/-- Claim C10: a `game:update` message is emitted to a player iff that
player's computed entity update list is non-empty; the projectile snapshots
and the player's own state ride along exactly in those ticks. -/
theorem C10_update_emission (p : PlayerE) (previous current : VisibleEntitiesE) :
    gameUpdateMessage p previous current
      = (if getEntityUpdates previous current = [] then none
          else some { playerSnap := p, entities := getEntityUpdates previous current,
                      projSnaps := current.projectiles })
    ∧ ((gameUpdateMessage p previous current).isSome
        ↔ getEntityUpdates previous current ≠ []) := by
  constructor
  · unfold gameUpdateMessage
    by_cases h : getEntityUpdates previous current = []
    · simp [h]
    · simp [h, List.length_pos.mpr h]
  · unfold gameUpdateMessage
    by_cases h : getEntityUpdates previous current = []
    · simp [h]
    · simp [h, List.length_pos.mpr h]

end PiratesConquest
